import Mathlib

/-!
Verification of the seneca-lucius message-envelope and handler-completion
protocol against its natural-language specification.

The JavaScript modules are shallowly embedded: JS runtime values become the
inductive `JSVal`, property access and truthiness are explicit functions,
thrown exceptions become `Except`/`Option` results, and the completion
callback `next` becomes an explicit `NextCall` value.  Sources embedded:
`src/modules/lucius.js` (makeFatalError, getFatalError, request,
validateInputSchema, register's senecaCallback), `src/modules/responder.js`
(LuciusResponder.inquest/success/failure/fatal and the bundled LuciusTools
module with extractArgPayload), `src/error/exceptions.js`
(LuciusErrorConstructor) and `src/error/index.js` (isLuciusError).
`src/modules/message.js` (LuciusMessage) is not in the sources and is
modelled from the spec where noted.
-/

namespace Lucius

/-- Shallow embedding of the JavaScript values the library manipulates.
`vErr` is an Error instance: `name`, `message`, `stack` are its string
fields, `code` is the value of its `code` property (`vUndefined` when the
property was never set), `seneca` is the truthiness of its `seneca`
property, `orig` is its `orig` property when that is itself error-shaped
(carrying the original message and code), and `isLucius` records whether
the value is an `instanceof LuciusError`. -/
inductive JSVal : Type where
  | vNull : JSVal
  | vUndefined : JSVal
  | vBool (b : Bool) : JSVal
  | vNum (n : Int) : JSVal
  | vStr (s : String) : JSVal
  | vObj (props : List (String × JSVal)) : JSVal
  | vArr (props : List (String × JSVal)) : JSVal
  | vErr (name message stack : String) (code : JSVal) (seneca : Bool)
      (orig : Option (String × JSVal)) (isLucius : Bool) : JSVal

/-- JavaScript truthiness.  (NaN is not modelled; `vNum` covers integers.) -/
def truthy : JSVal → Bool
  | .vNull => false
  | .vUndefined => false
  | .vBool b => b
  | .vNum n => n != 0
  | .vStr s => s != ""
  | .vObj _ => true
  | .vArr _ => true
  | .vErr .. => true

/-- Property read `v[p]`, defaulting to `undefined`.  Primitives box to
wrapper objects whose own properties (indices, length) are never the ones
this library reads, so they yield `undefined`.  Reads on `null`/`undefined`
throw in JS; callers that can receive those guard first (modelled by
`propGetOpt` below where the throw matters). -/
def propGet (v : JSVal) (p : String) : JSVal :=
  match v with
  | .vObj props => (props.lookup p).getD .vUndefined
  | .vArr props => (props.lookup p).getD .vUndefined
  | .vErr name msg stack code _ _ _ =>
      if p == "name" then .vStr name
      else if p == "message" then .vStr msg
      else if p == "stack" then .vStr stack
      else if p == "code" then code
      else .vUndefined
  | _ => .vUndefined

/-- Property read that models the TypeError thrown when reading a property
of `null` or `undefined`: `none` is the throw. -/
def propGetOpt (v : JSVal) (p : String) : Option JSVal :=
  match v with
  | .vNull => none
  | .vUndefined => none
  | _ => some (propGet v p)

/-- Own-property test `v.hasOwnProperty(p)`.  In the embedded code this is
only ever applied to non-Error values (plain objects, arrays, primitives);
a boxed primitive has no `code` or `message` own property. -/
def hasOwnProp : JSVal → String → Bool
  | .vObj props, p => (props.lookup p).isSome
  | .vArr props, p => (props.lookup p).isSome
  | _, _ => false

/-- String coercion `String(v)` as used when a value becomes an Error
message or an object key.  Array element joining is not modelled (the
library never coerces an array). -/
def jsToString : JSVal → String
  | .vNull => "null"
  | .vUndefined => "undefined"
  | .vBool b => if b then "true" else "false"
  | .vNum n => toString n
  | .vStr s => s
  | .vObj _ => "[object Object]"
  | .vArr _ => ""
  | .vErr n m _ _ _ _ _ => n ++ ": " ++ m

/-- Message string produced by `new Error(x)`: `undefined` (or no
argument) yields the empty message, anything else is string-coerced. -/
def errMessageOfArg : JSVal → String
  | .vUndefined => ""
  | v => jsToString v

/-- Test `e instanceof LuciusError`. -/
def isLuciusInstance : JSVal → Bool
  | .vErr _ _ _ _ _ _ il => il
  | _ => false

/-- Test `e instanceof Error`. -/
def isErrorInstance : JSVal → Bool
  | .vErr .. => true
  | _ => false

/-- Embeds `Lucius.getFatalError` (src/modules/lucius.js): when `e` is an
Error with truthy `seneca` and `orig` properties, build a fresh Error from
the original message, copy the original code, and keep the wrapper's stack
and name; otherwise return `e` unchanged. -/
def getFatalError (e : JSVal) : JSVal :=
  match e with
  | .vErr name _ stack _ true (some (origMessage, origCode)) _ =>
      .vErr name origMessage stack origCode false none false
  | _ => e

/-- Embeds `Lucius.makeFatalError` (src/modules/lucius.js): a LuciusError
is returned unchanged; otherwise the value is unwrapped via
`getFatalError`, and if still not an Error it is coerced into one, taking
`code`/`message` from own properties when present and the UNKNOWN
defaults otherwise. -/
def makeFatalError (e : JSVal) : JSVal :=
  if isLuciusInstance e then e
  else
    let e1 := getFatalError e
    if isErrorInstance e1 then e1
    else
      let oldCode :=
        if truthy e1 && hasOwnProp e1 "code" then propGet e1 "code"
        else .vStr "UNKNOWN CODE"
      let oldMessage :=
        if truthy e1 && hasOwnProp e1 "message" then propGet e1 "message"
        else .vStr "UNKNOWN MESSAGE"
      .vErr "Error" (errMessageOfArg oldMessage) "" oldCode false none false

/-- Classified protocol error as built by `LuciusErrorConstructor`
(src/error/exceptions.js): a stable `code`, an interpolated `message`, and
a `marker` that is stamped later by `LuciusResponder.failure` (the
constructor itself does not set it). -/
structure LuciusError where
  code : String
  message : String
  marker : Option String := none
  deriving Repr, DecidableEq

/-- Modelled from the spec: `src/modules/message.js` (LuciusMessage) is not
among the sources; per spec section 4.2 a Message carries `successful`,
`payload` and an ordered `errors` list. -/
structure LuciusMessage where
  successful : Bool
  payload : JSVal
  errors : List LuciusError

/-- Modelled from the spec: the wire-shape projection of a Message
(spec: ExportedMessage, same fields as plain structural values). -/
structure ExportedMessage where
  successful : Bool
  payload : JSVal
  errors : List LuciusError

/-- Modelled from the spec: a fresh Message is successful with null
payload and no errors. -/
def newMessage : LuciusMessage := ⟨true, .vNull, []⟩

/-- Modelled from the spec: `setPayload` stores the payload (builder-style
setter). -/
def setPayload (m : LuciusMessage) (p : JSVal) : LuciusMessage :=
  { m with payload := p }

/-- Modelled from the spec: `setError` appends the error and flips
`successful` to false permanently. -/
def setError (m : LuciusMessage) (e : LuciusError) : LuciusMessage :=
  ⟨false, m.payload, m.errors ++ [e]⟩

/-- Modelled from the spec: `isSuccessful` reads the success flag. -/
def isSuccessful (m : LuciusMessage) : Bool := m.successful

/-- Modelled from the spec: `export` projects the Message onto the wire
shape field by field. -/
def exportMsg (m : LuciusMessage) : ExportedMessage :=
  ⟨m.successful, m.payload, m.errors⟩

/-- Argument given to `makeMessage` / `new LuciusMessage(source)`. -/
inductive MessageSource : Type where
  | existing (m : LuciusMessage) : MessageSource
  | exported (x : ExportedMessage) : MessageSource
  | absent : MessageSource

/-- Modelled from the spec: `makeMessage` returns an existing Message
unchanged, imports an exported-shape value field by field, and builds a
fresh successful message when the source is absent. -/
def makeMessage : MessageSource → LuciusMessage
  | .existing m => m
  | .exported x => ⟨x.successful, x.payload, x.errors⟩
  | .absent => newMessage

/-- One invocation of the completion callback `next` bound to a Responder:
either `next(e)` with an error argument (a dispatcher-level fatal) or
`next(null, exported)` (a normal completion, success or business failure
alike). -/
inductive NextCall : Type where
  | errArg (e : JSVal) : NextCall
  | result (m : ExportedMessage) : NextCall

/-- Argument of `LuciusResponder.fatal`: either the LuciusSmuggleError
raised by `inquest` (carrying the failed Message in its `message` field,
per src/error/exceptions.js) or any other thrown value. -/
inductive FatalInput : Type where
  | smuggle (m : LuciusMessage) : FatalInput
  | other (v : JSVal) : FatalInput

/-- Embeds `LuciusResponder.success` (src/modules/responder.js): a
LuciusMessage argument is exported as-is, with no output-schema check; a
raw payload is first validated against the output schema when one is
registered (a failed validation throws, `Except.error`), then wrapped via
`makeMessage`/`setPayload`.  The JSON-schema validator itself (ajv) is an
external collaborator, abstracted as a boolean predicate on the payload. -/
def successOp (outputSchema : Option (JSVal → Bool))
    (input : Sum LuciusMessage JSVal) : Except String NextCall :=
  match input with
  | .inl m => .ok (.result (exportMsg m))
  | .inr p =>
      match outputSchema with
      | some s =>
          if s p then .ok (.result (exportMsg (setPayload (makeMessage .absent) p)))
          else .error "Returned payload failed schema validation."
      | none => .ok (.result (exportMsg (setPayload (makeMessage .absent) p)))

/-- Marker stamping `e.marker = LUCIUS_ERROR_MARKER` performed by
`LuciusResponder.failure` on every error it packs. -/
def stampMarker (e : LuciusError) : LuciusError :=
  { e with marker := some "lucius" }

/-- Error-list branch of `LuciusResponder.failure`: every entry must be an
`instanceof LuciusError` (the Bool flag), otherwise a TypeError is thrown;
then each error is marker-stamped and `setError`-ed into a fresh
message. -/
def failureList (es : List (Bool × LuciusError)) : Except String NextCall :=
  if es.all (fun x => x.1) then
    .ok (.result (exportMsg
      ((es.map (fun x => stampMarker x.2)).foldl setError (makeMessage .absent))))
  else .error "TypeError: Error at index must be instance of LuciusError"

/-- Argument of `LuciusResponder.failure`: a Message, a single error, or
an array of errors (a single error is wrapped into a one-element array by
the source's sanity check). -/
inductive FailureInput : Type where
  | msg (m : LuciusMessage) : FailureInput
  | single (isInst : Bool) (e : LuciusError) : FailureInput
  | multiple (es : List (Bool × LuciusError)) : FailureInput

/-- Embeds `LuciusResponder.failure` (src/modules/responder.js). -/
def failureOp : FailureInput → Except String NextCall
  | .msg m => .ok (.result (exportMsg m))
  | .single i e => failureList [(i, e)]
  | .multiple es => failureList es

/-- Embeds `LuciusResponder.fatal` (src/modules/responder.js): a
LuciusSmuggleError is delegated to `failure` with the smuggled Message (a
Message instance never throws in `failure`, so this is `next(null,
m.export())`); anything else is normalized by `makeFatalError` and handed
to `next` as the error argument. -/
def fatalOp : FatalInput → NextCall
  | .smuggle m => .result (exportMsg m)
  | .other v => .errArg (makeFatalError v)

/-- One completion attempt on a Responder. -/
inductive RespCall : Type where
  | success (input : Sum LuciusMessage JSVal) : RespCall
  | failure (input : FailureInput) : RespCall
  | fatal (input : FatalInput) : RespCall

/-- Effect of a single Responder call on the completion callback: `some`
is the one `next` invocation the call performs, `none` means the call
threw before reaching `next`. -/
def callEffect (outputSchema : Option (JSVal → Bool)) : RespCall → Option NextCall
  | .success i => (successOp outputSchema i).toOption
  | .failure i => (failureOp i).toOption
  | .fatal f => some (fatalOp f)

/-- The sequence of completion-callback invocations produced by a sequence
of calls on one Responder instance (the source keeps no completion state,
so each call acts independently). -/
def runCalls (outputSchema : Option (JSVal → Bool)) (cs : List RespCall) : List NextCall :=
  cs.filterMap (callEffect outputSchema)

/-- Embeds `LuciusResponder.inquest` (src/modules/responder.js) given the
Message the nested request resolved to: a successful Message returns its
payload, a failed one throws the LuciusSmuggleError carrying it. -/
def inquestRes (nested : LuciusMessage) : Except FatalInput JSVal :=
  if isSuccessful nested then .ok nested.payload
  else .error (.smuggle nested)

/-- The enclosing invocation of a handler whose first action is
`inquest` with nested result `nested`: the handler boundary in
`Lucius.register` catches anything the handler throws and routes it to
`responder.fatal`; `rest` is the remainder of the handler body, which may
itself complete, not complete, or throw. -/
def runHandlerWithInquest (nested : LuciusMessage)
    (rest : JSVal → Except FatalInput (Option NextCall)) : Option NextCall :=
  match inquestRes nested with
  | .ok p =>
      match rest p with
      | .ok nc => nc
      | .error f => some (fatalOp f)
  | .error f => some (fatalOp f)

/-- Property filter of `LuciusTools.extractArgPayload` (the LuciusTools
module bundled in src/modules/responder.js): a property survives iff its
name contains no dollar sign and is none of `role`, `cmd`, `internal`,
`__`. -/
def keepProp (p : String) : Bool :=
  !(p.contains '$') && !(p == "role") && !(p == "cmd")
    && !(p == "internal") && !(p == "__")

/-- Embeds `LuciusTools.extractArgPayload`: non-objects, `null` and arrays
are returned unchanged; an object keeps exactly the properties passing
`keepProp`, values untouched.  (An Error instance would also be filtered
in JS, but a dispatcher argument bag is always a plain object, so that
case is left as passthrough.) -/
def extractArgPayload : JSVal → JSVal
  | .vObj props => .vObj (props.filter (fun kv => keepProp kv.1))
  | v => v

/-- Context extraction `senecaArgs.__ || {}` performed by the registration
adapter (src/modules/lucius.js). -/
def sessionInfoOf (senecaArgs : List (String × JSVal)) : JSVal :=
  let v := (senecaArgs.lookup "__").getD .vUndefined
  if truthy v then v else .vObj []

/-- The Error thrown by `Lucius.validateInputSchema` when the arguments do
not conform to the registered input schema. -/
def inputValidationError : JSVal :=
  .vErr "Error" "Input arguments failed schema validation." "" .vUndefined false none false

/-- Outcome of one dispatcher invocation of the callback fabricated by
`Lucius.register`: whether the user handler was invoked, and the `next`
invocation the boundary produced (if any). -/
structure InvocationResult where
  handlerInvoked : Bool
  completion : Option NextCall

/-- Handler delivery and the surrounding try/catch boundary of
`Lucius.register`: a handler throw is routed to `responder.fatal`. -/
def deliverResult (r : Except FatalInput (Option NextCall)) : InvocationResult :=
  match r with
  | .ok nc => ⟨true, nc⟩
  | .error f => ⟨true, some (fatalOp f)⟩

/-- Embeds the `senecaCallback` fabricated by `Lucius.register`
(src/modules/lucius.js): extract the session info and the filtered
payload, validate the payload against the input schema when one is
registered (a failure throws and is caught by the boundary, reaching
`responder.fatal` before the handler runs), then invoke the handler with
the filtered payload and the session info. The ajv validator is abstracted
as a boolean predicate; the handler is a function from payload and session
info to its (possibly throwing, possibly non-completing) outcome. -/
def senecaCallback (inputSchema : Option (JSVal → Bool))
    (handler : JSVal → JSVal → Except FatalInput (Option NextCall))
    (senecaArgs : List (String × JSVal)) : InvocationResult :=
  let sessionInfo := sessionInfoOf senecaArgs
  let argPayload := extractArgPayload (.vObj senecaArgs)
  match inputSchema with
  | some s =>
      if s argPayload then deliverResult (handler argPayload sessionInfo)
      else ⟨false, some (fatalOp (.other inputValidationError))⟩
  | none => deliverResult (handler argPayload sessionInfo)

/-- Outcome of the synchronous part of `Lucius.request`
(src/modules/lucius.js) before the dispatcher call: either `seneca.act` is
reached with the given argument value, or a TypeError was thrown first. -/
inductive DispatchOutcome : Type where
  | dispatched (args : JSVal) : DispatchOutcome
  | threw : DispatchOutcome

/-- Property write `v[p] = x` under strict mode: updating an object or an
array succeeds (replacing the binding or appending it); writing on a
primitive, `null` or `undefined` throws a TypeError (`none`).  (Error
objects do accept writes in JS; no embedded call path writes a property
on one, so that case is not modelled.) -/
def setProp (v : JSVal) (p : String) (x : JSVal) : Option JSVal :=
  match v with
  | .vObj props =>
      some (.vObj (if (props.lookup p).isSome
        then props.map (fun kv => if kv.1 == p then (p, x) else kv)
        else props ++ [(p, x)]))
  | .vArr props =>
      some (.vArr (if (props.lookup p).isSome
        then props.map (fun kv => if kv.1 == p then (p, x) else kv)
        else props ++ [(p, x)]))
  | _ => none

/-- Embeds the pre-dispatch phase of `Lucius.request`: the source runs
`if (!args.__ && userInfo) args.__ = userInfo;` and then always calls the
dispatcher — it performs no argument-shape validation.  Reading `__` on
`null`/`undefined` throws, as does the strict-mode write on a
primitive. -/
def requestPre (args userInfo : JSVal) : DispatchOutcome :=
  match propGetOpt args "__" with
  | none => .threw
  | some cur =>
      if !truthy cur && truthy userInfo then
        match setProp args "__" userInfo with
        | some a2 => .dispatched a2
        | none => .threw
      else .dispatched args

/-- Definition of a registry entry (src/error/registry.js is external,
developer-supplied configuration: a stable `code` and a message template
applied to the interpolation values). -/
structure ErrorDef : Type where
  code : String
  message : List (String × String) → String

/-- Embeds `LuciusErrorConstructor` (src/error/exceptions.js): a
non-string object-shaped code argument is replaced by its `code` property;
an unknown registry key throws (`Except.error`, the source throws
`new Error` with an unknown-message-code text); otherwise the classified
error takes the registry entry's `code` and its message template applied
to the interpolation values (marker is not set here). -/
def makeError (registry : List (String × ErrorDef)) (msgCode : JSVal)
    (interpolationValues : List (String × String)) : Except String LuciusError :=
  let resolved : JSVal :=
    match msgCode with
    | .vStr _ => msgCode
    | .vObj _ => if truthy msgCode then propGet msgCode "code" else msgCode
    | .vArr _ => if truthy msgCode then propGet msgCode "code" else msgCode
    | .vErr .. => if truthy msgCode then propGet msgCode "code" else msgCode
    | _ => msgCode
  let k := jsToString resolved
  match registry.lookup k with
  | some d => .ok ⟨d.code, d.message interpolationValues, none⟩
  | none => .error ("Unknown message code " ++ k)

/-- String strict-equality test `v === s` against a string literal. -/
def jsStrEq (v : JSVal) (s : String) : Bool :=
  match v with
  | .vStr t => t == s
  | _ => false

/-- Embeds `isLuciusError` (src/error/index.js): `e instanceof LuciusError
|| e.name && e.name === 'LuciusError' || e.marker && e.marker === 'lucius'`.
The instanceof test never throws, but the subsequent `e.name` read throws
a TypeError on `null`/`undefined` (`none`); otherwise the result is the
truthiness of the JS expression. -/
def isLuciusError (e : JSVal) : Option Bool :=
  match e with
  | .vNull => none
  | .vUndefined => none
  | _ => some (isLuciusInstance e
      || (truthy (propGet e "name") && jsStrEq (propGet e "name") "LuciusError")
      || (truthy (propGet e "marker") && jsStrEq (propGet e "marker") "lucius"))

/-- C1 counterexample: two `success` calls on the same Responder fire the
completion callback twice — the source keeps no completion state, so the
callback does not fire exactly once for this sequence. -/
theorem responder_double_success_fires_twice :
    runCalls none [.success (.inr .vNull), .success (.inr .vNull)]
      = [.result ⟨true, .vNull, []⟩, .result ⟨true, .vNull, []⟩]
    ∧ (runCalls none [.success (.inr .vNull), .success (.inr .vNull)]).length = 2
    ∧ (2 : Nat) ≠ 1 :=
  ⟨rfl, rfl, by decide⟩

/-- C1 (amended): each completion call that does not itself throw fires
the bound completion callback exactly once with that call's content, and
the first call's content is delivered first; hence the callback fires
exactly once precisely when the handler makes exactly one non-throwing
completion call — the Responder does not detect double completion. -/
theorem responder_fires_once_per_completion_call
    (outputSchema : Option (JSVal → Bool)) (c : RespCall) (cs : List RespCall)
    (nc : NextCall) (h : callEffect outputSchema c = some nc) :
    runCalls outputSchema (c :: cs) = nc :: runCalls outputSchema cs
    ∧ runCalls outputSchema [c] = [nc] := by
  constructor
  · simp [runCalls, List.filterMap_cons, h]
  · simp [runCalls, List.filterMap_cons, h]

/-- Witness for the amended C1 theorem at a concrete single `success`
call. -/
theorem responder_fires_once_witness :
    runCalls none [.success (.inr .vNull)] = [.result ⟨true, .vNull, []⟩] :=
  (responder_fires_once_per_completion_call none (.success (.inr .vNull)) []
    (.result ⟨true, .vNull, []⟩) rfl).2

/-- C2: when a handler's `inquest` resolves to a failed Message, the
enclosing invocation completes as a business failure `(null, exported
message)` whose error list is exactly the nested Message's errors, and
never as a dispatcher-level fatal. -/
theorem inquest_failure_converges_to_business_failure
    (nested : LuciusMessage) (rest : JSVal → Except FatalInput (Option NextCall))
    (h : isSuccessful nested = false) :
    runHandlerWithInquest nested rest = some (.result (exportMsg nested))
    ∧ (exportMsg nested).errors = nested.errors
    ∧ ∀ e, runHandlerWithInquest nested rest ≠ some (.errArg e) := by
  have h1 : runHandlerWithInquest nested rest = some (.result (exportMsg nested)) := by
    simp [runHandlerWithInquest, inquestRes, h, fatalOp]
  refine ⟨h1, rfl, ?_⟩
  intro e
  rw [h1]
  simp

/-- Witness for C2 at a concrete failed nested Message. -/
theorem inquest_failure_converges_witness :
    runHandlerWithInquest ⟨false, .vNull, [⟨"X", "bad", some "lucius"⟩]⟩ (fun _ => .ok none)
      = some (.result ⟨false, .vNull, [⟨"X", "bad", some "lucius"⟩]⟩) :=
  (inquest_failure_converges_to_business_failure
    ⟨false, .vNull, [⟨"X", "bad", some "lucius"⟩]⟩ (fun _ => .ok none) rfl).1

/-- C3 counterexample: a handler-thrown plain string "boom" is normalized
with message UNKNOWN MESSAGE, not "boom" — a primitive string has no own
`message` property, so `makeFatalError` falls back to the default, and the
dispatcher receives that as the error argument. -/
theorem makeFatalError_string_boom_loses_message :
    fatalOp (.other (.vStr "boom"))
      = .errArg (.vErr "Error" "UNKNOWN MESSAGE" "" (.vStr "UNKNOWN CODE") false none false)
    ∧ ("UNKNOWN MESSAGE" : String) ≠ "boom" :=
  ⟨rfl, by decide⟩

/-- C3 (amended): `makeFatalError` is a complete case analysis — an
already classified LuciusError is returned unchanged; a dispatcher-wrapped
error (truthy `seneca` flag together with an `orig` cause) is unwrapped
into a fresh Error built from the original message and code, preserving
the wrapper's stack and name; any other Error instance is returned
unchanged, without acquiring a `code` field; and any non-Error value is
coerced into an Error taking its own `code` property when present (else
UNKNOWN CODE) and its own `message` property when present (else UNKNOWN
MESSAGE); in particular a thrown plain string "boom" becomes code UNKNOWN
CODE with message UNKNOWN MESSAGE. -/
theorem makeFatalError_normalizes (e : JSVal)
    (name msg stack : String) (code : JSVal) (sen : Bool)
    (orig : Option (String × JSVal)) (omsg : String) (ocode : JSVal) :
    (isLuciusInstance e = true → makeFatalError e = e)
    ∧ makeFatalError (.vErr name msg stack code true (some (omsg, ocode)) false)
        = .vErr name omsg stack ocode false none false
    ∧ (sen = false ∨ orig = none →
        makeFatalError (.vErr name msg stack code sen orig false)
          = .vErr name msg stack code sen orig false)
    ∧ (isErrorInstance e = false →
        makeFatalError e = .vErr "Error"
          (errMessageOfArg (if truthy e && hasOwnProp e "message"
            then propGet e "message" else .vStr "UNKNOWN MESSAGE"))
          ""
          (if truthy e && hasOwnProp e "code"
            then propGet e "code" else .vStr "UNKNOWN CODE")
          false none false)
    ∧ makeFatalError (.vStr "boom")
        = .vErr "Error" "UNKNOWN MESSAGE" "" (.vStr "UNKNOWN CODE") false none false := by
  refine ⟨?_, rfl, ?_, ?_, rfl⟩
  · intro h
    simp [makeFatalError, h]
  · intro h
    rcases h with h | h
    · subst h
      rfl
    · subst h
      cases sen
      · rfl
      · rfl
  · intro hErr
    cases e with
    | vErr n m st c s2 o il => simp [isErrorInstance] at hErr
    | vNull => rfl
    | vUndefined => rfl
    | vBool b =>
        simp [makeFatalError, isLuciusInstance, getFatalError, isErrorInstance, hasOwnProp]
    | vNum n =>
        simp [makeFatalError, isLuciusInstance, getFatalError, isErrorInstance, hasOwnProp]
    | vStr s =>
        simp [makeFatalError, isLuciusInstance, getFatalError, isErrorInstance, hasOwnProp]
    | vObj props =>
        simp [makeFatalError, isLuciusInstance, getFatalError, isErrorInstance]
    | vArr props =>
        simp [makeFatalError, isLuciusInstance, getFatalError, isErrorInstance]

/-- Witness for the amended C3 theorem: a LuciusError passes through
unchanged; a plain foreign Error (no seneca flag) passes through unchanged
with its code still undefined; a bare number is coerced with both UNKNOWN
defaults; an object carrying own code and message properties has them
extracted. -/
theorem makeFatalError_normalizes_witness :
    makeFatalError (.vErr "LuciusError" "m" "" (.vStr "X") false none true)
      = .vErr "LuciusError" "m" "" (.vStr "X") false none true
    ∧ makeFatalError (.vErr "TypeError" "nope" "tr" .vUndefined false none false)
      = .vErr "TypeError" "nope" "tr" .vUndefined false none false
    ∧ makeFatalError (.vNum 5)
      = .vErr "Error" "UNKNOWN MESSAGE" "" (.vStr "UNKNOWN CODE") false none false
    ∧ makeFatalError (.vObj [("code", .vStr "E1"), ("message", .vStr "bad")])
      = .vErr "Error" "bad" "" (.vStr "E1") false none false := by
  refine ⟨?_, ?_, ?_, ?_⟩
  · exact (makeFatalError_normalizes (.vErr "LuciusError" "m" "" (.vStr "X") false none true)
      "" "" "" .vNull false none "" .vNull).1 rfl
  · exact (makeFatalError_normalizes .vNull "TypeError" "nope" "tr" .vUndefined false none
      "" .vNull).2.2.1 (Or.inl rfl)
  · have h := (makeFatalError_normalizes (.vNum 5) "" "" "" .vNull false none "" .vNull).2.2.2.1 rfl
    simpa using h
  · have h := (makeFatalError_normalizes (.vObj [("code", .vStr "E1"), ("message", .vStr "bad")])
      "" "" "" .vNull false none "" .vNull).2.2.2.1 rfl
    simpa using h

/-- C4: importing the exported wire shape of a Message yields a Message
observationally equal to the original — same success flag, same payload,
same ordered error list. -/
theorem message_export_import_roundtrip (m : LuciusMessage) :
    makeMessage (.exported (exportMsg m)) = m
    ∧ (makeMessage (.exported (exportMsg m))).successful = m.successful
    ∧ (makeMessage (.exported (exportMsg m))).payload = m.payload
    ∧ (makeMessage (.exported (exportMsg m))).errors = m.errors :=
  ⟨rfl, rfl, rfl, rfl⟩

/-- C5: constructing a classified error from a registry code (or from an
object exposing that code) yields the registry entry's `code` and its
message template applied to the parameters; an absent code fails with the
unknown-message-code error. -/
theorem makeError_registry_spec (registry : List (String × ErrorDef))
    (c : String) (p : List (String × String)) (d : ErrorDef)
    (h : registry.lookup c = some d) :
    makeError registry (.vStr c) p = .ok ⟨d.code, d.message p, none⟩
    ∧ makeError registry (.vObj [("code", .vStr c)]) p = .ok ⟨d.code, d.message p, none⟩
    ∧ ∀ c2 p2, registry.lookup c2 = none →
        makeError registry (.vStr c2) p2 = .error ("Unknown message code " ++ c2) := by
  refine ⟨?_, ?_, ?_⟩
  · simp [makeError, jsToString, h]
  · simp [makeError, propGet, truthy, jsToString, h]
  · intro c2 p2 h2
    simp [makeError, jsToString, h2]

/-- Witness for C5 at a concrete one-entry registry. -/
theorem makeError_registry_witness :
    makeError [("NEG", ⟨"NEG", fun _ => "negative value"⟩)] (.vStr "NEG") []
      = .ok ⟨"NEG", "negative value", none⟩ :=
  (makeError_registry_spec [("NEG", ⟨"NEG", fun _ => "negative value"⟩)] "NEG" []
    ⟨"NEG", fun _ => "negative value"⟩ rfl).1

/-- C6 counterexample: with an output schema registered that rejects every
payload, `success` given an already-built Message completes successfully
without any validation, while the same payload passed raw is rejected —
refuting the claim that both input forms are validated before
completion. -/
theorem success_message_input_skips_output_validation :
    successOp (some (fun _ => false)) (.inl ⟨true, .vStr "bad", []⟩)
      = .ok (.result ⟨true, .vStr "bad", []⟩)
    ∧ successOp (some (fun _ => false)) (.inr (.vStr "bad"))
      = .error "Returned payload failed schema validation." :=
  ⟨rfl, rfl⟩

/-- C6 (amended): output-schema validation happens only on the raw-payload
branch of `success` — there a failing payload throws before the completion
callback and a conforming payload completes successfully — while an
already-built Message bypasses the output schema entirely. -/
theorem success_output_validation_spec (s : JSVal → Bool) (p : JSVal) (m : LuciusMessage) :
    (s p = false → successOp (some s) (.inr p)
        = .error "Returned payload failed schema validation.")
    ∧ (s p = true → successOp (some s) (.inr p) = .ok (.result ⟨true, p, []⟩))
    ∧ successOp (some s) (.inl m) = .ok (.result (exportMsg m)) := by
  refine ⟨?_, ?_, rfl⟩
  · intro h
    simp [successOp, h]
  · intro h
    simp [successOp, h, exportMsg, setPayload, makeMessage, newMessage]

/-- Witness for the amended C6 theorem with a concrete schema accepting
only null. -/
theorem success_output_validation_witness :
    successOp (some (fun v => match v with | .vNull => true | _ => false)) (.inr (.vStr "bad"))
      = .error "Returned payload failed schema validation."
    ∧ successOp (some (fun v => match v with | .vNull => true | _ => false)) (.inr .vNull)
      = .ok (.result ⟨true, .vNull, []⟩) :=
  ⟨(success_output_validation_spec (fun v => match v with | .vNull => true | _ => false)
      (.vStr "bad") ⟨true, .vNull, []⟩).1 rfl,
   (success_output_validation_spec (fun v => match v with | .vNull => true | _ => false)
      .vNull ⟨true, .vNull, []⟩).2.1 rfl⟩

/-- C7: when the filtered payload fails the registered input schema, the
invocation completes fatally with the schema-validation Error and the
handler is never invoked. -/
theorem input_schema_failure_fatal_before_handler
    (s : JSVal → Bool) (handler : JSVal → JSVal → Except FatalInput (Option NextCall))
    (args : List (String × JSVal))
    (h : s (extractArgPayload (.vObj args)) = false) :
    senecaCallback (some s) handler args
      = ⟨false, some (.errArg inputValidationError)⟩
    ∧ (senecaCallback (some s) handler args).handlerInvoked = false := by
  have h1 : senecaCallback (some s) handler args
      = ⟨false, some (.errArg inputValidationError)⟩ := by
    simp [senecaCallback, h, fatalOp]
    rfl
  exact ⟨h1, by rw [h1]⟩

/-- Witness for C7 with a schema rejecting everything. -/
theorem input_schema_failure_witness :
    senecaCallback (some (fun _ => false)) (fun _ _ => .ok none) [("a", .vStr "x")]
      = ⟨false, some (.errArg inputValidationError)⟩ :=
  (input_schema_failure_fatal_before_handler (fun _ => false) (fun _ _ => .ok none)
    [("a", .vStr "x")] rfl).1

/-- C8 counterexample: `request` with an array args value dispatches to
the dispatcher (with the context merged under `__` when provided) instead
of failing with an invalid-argument-shape error before dispatch. -/
theorem request_array_args_dispatches :
    requestPre (.vArr [("0", .vNum 1)]) .vNull = .dispatched (.vArr [("0", .vNum 1)])
    ∧ requestPre (.vArr []) (.vObj [("user", .vStr "u")])
      = .dispatched (.vArr [("__", .vObj [("user", .vStr "u")])]) :=
  ⟨rfl, rfl⟩

/-- C8 (amended): `request` performs no argument-shape validation — array
and object args values always reach the dispatcher; in particular when the
context argument is falsy the args value is dispatched unchanged.  (The
only synchronous pre-dispatch failure in the source is the strict-mode
TypeError raised when merging context onto a primitive args value.) -/
theorem request_no_shape_check (props : List (String × JSVal)) (userInfo : JSVal) :
    (∃ a, requestPre (.vArr props) userInfo = .dispatched a)
    ∧ (truthy userInfo = false → requestPre (.vArr props) userInfo = .dispatched (.vArr props))
    ∧ (∃ a, requestPre (.vObj props) userInfo = .dispatched a) := by
  refine ⟨?_, ?_, ?_⟩
  · simp only [requestPre, propGetOpt]
    split
    · exact ⟨_, rfl⟩
    · exact ⟨_, rfl⟩
  · intro h
    simp [requestPre, propGetOpt, h]
  · simp only [requestPre, propGetOpt]
    split
    · exact ⟨_, rfl⟩
    · exact ⟨_, rfl⟩

/-- Witness for the amended C8 theorem: an array args value with no
context is dispatched unchanged. -/
theorem request_no_shape_check_witness :
    requestPre (.vArr [("0", .vNum 7)]) .vUndefined = .dispatched (.vArr [("0", .vNum 7)]) :=
  (request_no_shape_check [("0", .vNum 7)] .vUndefined).2.1 rfl

/-- Helper: looking a property up in the filtered argument bag finds it
iff the property survives `keepProp`, with its original value. -/
theorem lookup_filter_keepProp (l : List (String × JSVal)) (p : String) :
    (l.filter (fun kv => keepProp kv.1)).lookup p
      = if keepProp p then l.lookup p else none := by
  induction l with
  | nil => simp
  | cons kv t ih =>
      obtain ⟨k, v⟩ := kv
      by_cases hp : p = k
      · subst hp
        by_cases hk : keepProp p = true
        · simp [List.filter_cons, hk, List.lookup]
        · simp only [Bool.not_eq_true] at hk
          simp [List.filter_cons, hk, ih]
      · have hbe : (p == k) = false := beq_eq_false_iff_ne.mpr hp
        by_cases hk : keepProp k = true
        · simp [List.filter_cons, hk, List.lookup, hbe, ih]
        · simp only [Bool.not_eq_true] at hk
          simp [List.filter_cons, hk, ih, List.lookup, hbe]

/-- C9: a registered handler receives exactly the filtered business
payload — `senecaCallback` hands the handler `extractArgPayload` of the
raw argument bag, which keeps a property iff its name contains no dollar
sign and is none of role, cmd, internal, `__`, with all surviving values
passed through unchanged. -/
theorem handler_receives_filtered_payload
    (handler : JSVal → JSVal → Except FatalInput (Option NextCall))
    (args : List (String × JSVal)) (p : String) :
    senecaCallback none handler args
      = deliverResult (handler (extractArgPayload (.vObj args)) (sessionInfoOf args))
    ∧ extractArgPayload (.vObj args) = .vObj (args.filter (fun kv => keepProp kv.1))
    ∧ (args.filter (fun kv => keepProp kv.1)).lookup p
        = (if keepProp p then args.lookup p else none)
    ∧ (keepProp p = true
        ↔ (p.contains '$' = false ∧ p ≠ "role" ∧ p ≠ "cmd" ∧ p ≠ "internal" ∧ p ≠ "__")) := by
  refine ⟨rfl, rfl, lookup_filter_keepProp args p, ?_⟩
  simp [keepProp, Bool.and_eq_true, Bool.not_eq_true', beq_iff_eq]
  tauto

/-- Helper: the JS guard `x && x === s` is truthy exactly when `x` is the
(nonempty) string `s`. -/
theorem truthy_strEq (x : JSVal) (s : String) (hs : ¬ s = "") :
    (truthy x = true ∧ jsStrEq x s = true) ↔ x = .vStr s := by
  cases x <;> simp [truthy, jsStrEq, bne_iff_ne, beq_iff_eq]
  case vStr t =>
    intro h
    subst h
    exact hs

/-- C10: `isLuciusError` throws a TypeError on null and undefined inputs
(the `e.name` read), and on every other input returns a value that is
truthy iff the input is a LuciusError instance, or its name property is
the string LuciusError, or its marker property is the protocol marker
lucius. -/
theorem isLuciusError_domain (e : JSVal) :
    isLuciusError .vNull = none
    ∧ isLuciusError .vUndefined = none
    ∧ (e ≠ .vNull → e ≠ .vUndefined →
        ∃ b, isLuciusError e = some b
          ∧ (b = true
              ↔ (isLuciusInstance e = true ∨ propGet e "name" = .vStr "LuciusError"
                  ∨ propGet e "marker" = .vStr "lucius"))) := by
  have key : ∀ v : JSVal, v ≠ .vNull → v ≠ .vUndefined →
      isLuciusError v = some (isLuciusInstance v
        || (truthy (propGet v "name") && jsStrEq (propGet v "name") "LuciusError")
        || (truthy (propGet v "marker") && jsStrEq (propGet v "marker") "lucius")) := by
    intro v h1 h2
    cases v
    case vNull => exact absurd rfl h1
    case vUndefined => exact absurd rfl h2
    all_goals rfl
  refine ⟨rfl, rfl, fun h1 h2 => ⟨_, key e h1 h2, ?_⟩⟩
  have g1 := truthy_strEq (propGet e "name") "LuciusError" (by decide)
  have g2 := truthy_strEq (propGet e "marker") "lucius" (by decide)
  simp only [Bool.or_eq_true, Bool.and_eq_true, g1, g2, or_assoc]

/-- Witness for C10: an object carrying only the protocol marker is
recognized. -/
theorem isLuciusError_domain_witness :
    isLuciusError (.vObj [("marker", .vStr "lucius")]) = some true := by
  obtain ⟨b, hb, hiff⟩ :=
    (isLuciusError_domain (.vObj [("marker", .vStr "lucius")])).2.2
      (fun h => JSVal.noConfusion h) (fun h => JSVal.noConfusion h)
  rw [hb, hiff.mpr (Or.inr (Or.inr rfl))]

end Lucius
